import Mathlib

/-!
Verification of the LIFE_landuse priority-based compositing engine.

The raster path models Step 9 of `main.py` (the combine loop over
priority-ordered grids), the vector path models `priority_union_layers`
and `clean_geometries`, and the rasterization model covers the
`rasterize(..., fill=0, all_touched=True)` call of Step 8.

Geometry operations (shapely `intersects`, `bounds`, `buffer(0)`,
`simplify`, `is_empty`) are external-library collaborators; the embedding
is parametric in them through `GeomOps`.
-/

namespace LifeLanduse

/-! ## Raster model (Step 9 of main.py) -/

/-- A raster grid as read by `rasterio.open` in Step 9: the metadata fields
that the combine loop compares (`width`, `height`, `transform`, `crs`),
the `nodata` value of the file metadata, and the band data as a map from
(row-major) cell index to the stored unsigned cell value. -/
structure Grid where
  width : Nat
  height : Nat
  transform : Int × Int × Int × Int
  crs : Nat
  nodata : Nat
  data : Nat → Nat

/-- The metadata comparison of the combine loop: Step 9 skips a raster when
`src.width != raster_meta['width'] or src.height != ... or src.transform != ...
or src.crs != ...`; this is the negation of that disjunction. -/
def matchesMeta (meta h : Grid) : Prop :=
  h.width = meta.width ∧ h.height = meta.height ∧
    h.transform = meta.transform ∧ h.crs = meta.crs

instance (meta h : Grid) : Decidable (matchesMeta meta h) := by
  unfold matchesMeta; infer_instance

/-- One iteration of the Step 9 combine loop for a subsequent grid `h`:
if the metadata does not match the first grid's metadata the grid is
skipped (`continue`), otherwise cells where the accumulator holds
`nodata` and `h` holds a value that is neither `nodata` nor `0` are
overwritten with `h`'s value
(`combined_array[mask & fill_mask] = current_array[mask & fill_mask]`). -/
def combineStep (nodata : Nat) (meta : Grid) (acc : Nat → Nat) (h : Grid) : Nat → Nat :=
  if matchesMeta meta h then
    fun c => if acc c = nodata ∧ h.data c ≠ nodata ∧ h.data c ≠ 0 then h.data c else acc c
  else acc

/-- The Step 9 combine loop over the successfully opened rasters in priority
order: the first grid initializes `combined_array` verbatim and supplies
`raster_meta` (including the `nodata` used for the fill mask); each later
grid is folded in with `combineStep`.  With no grid at all, no combined
raster exists (`rasters_processed` stays false). -/
def combineRasters : List Grid → Option (Nat → Nat)
  | [] => none
  | g :: rest => some (rest.foldl (combineStep g.nodata g) g.data)

/-- Step 9 including the per-layer skip of missing or unreadable raster
files: a `none` entry is a priority layer whose raster file was absent or
failed to open (`continue`), and only the remaining grids are combined. -/
def combinePipeline (rs : List (Option Grid)) : Option (Nat → Nat) :=
  combineRasters (rs.filterMap id)

/-- The value the spec assigns to a composite cell: the first (= highest
priority) non-zero value of the per-grid cell values, and `0` when all
of them are `0`. -/
def firstNonzero : List Nat → Nat
  | [] => 0
  | v :: vs => if v ≠ 0 then v else firstNonzero vs

/-! ## Vector model (`clean_geometries` and `priority_union_layers`) -/

/-- An axis-aligned bounding box as returned by shapely `bounds`
(`minx, miny, maxx, maxy`). -/
structure Box where
  minx : Int
  miny : Int
  maxx : Int
  maxy : Int
deriving DecidableEq

/-- Bounding-box intersection as used by the `rtree`-backed
`result.sindex.intersection(bounds)` query. -/
def Box.overlaps (a b : Box) : Bool :=
  decide (a.minx ≤ b.maxx ∧ b.minx ≤ a.maxx ∧ a.miny ≤ b.maxy ∧ b.miny ≤ a.maxy)

/-- The external shapely/geopandas geometry operations the compositor calls:
exact intersection test, bounding box, `buffer(0)` repair,
`simplify(tolerance=1.0, preserve_topology=True)`, and the emptiness test. -/
structure GeomOps (G : Type) where
  intersects : G → G → Bool
  bounds : G → Box
  buffer0 : G → G
  simplify : G → G
  isEmpty : G → Bool

/-- One GeoDataFrame row inside `priority_union_layers`: geometry, the other
attribute columns (abstracted as one value), and the `_layer_priority`
rank stamped on the row's layer. -/
structure Feature (G A : Type) where
  geom : G
  attrs : A
  rank : Nat
deriving DecidableEq

/-- `gdf.drop_duplicates(subset=['geometry'])`: keep the first row carrying
each geometry, drop every later row with an equal geometry. -/
def dedupByGeom {G A : Type} [DecidableEq G] : List (Feature G A) → List (Feature G A)
  | [] => []
  | f :: rest => f :: (dedupByGeom rest).filter fun g => decide (g.geom ≠ f.geom)

/-- `clean_geometries` (`main.py` lines 47-63): drop duplicate geometries,
apply `buffer(0)`, apply `simplify`, drop empty geometries. -/
def clean_geometries {G A : Type} [DecidableEq G] (ops : GeomOps G)
    (gdf : List (Feature G A)) : List (Feature G A) :=
  (((dedupByGeom gdf).map fun f => { f with geom := ops.buffer0 f.geom }).map
      fun f => { f with geom := ops.simplify f.geom }).filter
    fun f => !ops.isEmpty f.geom

/-- The spatial-index query `list(spatial_index.intersection(row.geometry.bounds))`:
the positions (row positions of the indexed snapshot of `result`) whose
stored bounding box overlaps the incoming feature's bounding box. -/
def bboxCandidates {G A : Type} (ops : GeomOps G) (snapshot : List (Feature G A))
    (f : Feature G A) : List Nat :=
  (snapshot.enum.filter fun pe => (ops.bounds pe.2.geom).overlaps (ops.bounds f.geom)).map
    Prod.fst

/-- `result.iloc[possible_matches_index][... .intersects(row.geometry)]`:
look the candidate positions up in the current `result` and keep the rows
whose geometry truly intersects the incoming geometry. -/
def trueIntersectors {G A : Type} (ops : GeomOps G) (snapshot result : List (Feature G A))
    (f : Feature G A) : List (Feature G A) :=
  ((bboxCandidates ops snapshot f).filterMap fun p => result.get? p).filter
    fun r => ops.intersects r.geom f.geom

/-- `intersecting['_layer_priority'].max()` (pandas max over a non-empty
column). -/
def maxRank {G A : Type} (l : List (Feature G A)) : Nat :=
  l.foldl (fun m r => max m r.rank) 0

/-- The body of the inner `for idx, row in next_layer.iterrows()` loop of
`priority_union_layers`: state is the pair (current `result`, accumulated
`updated_geometries`).  With true intersectors present, the incoming rank
is compared against their maximum: a strictly smaller incoming rank
filters `result` down to rows with `_layer_priority` greater than the
incoming rank or not intersecting the incoming geometry and accepts the
row; a strictly greater incoming rank skips the row (`continue`); equal
ranks fall through both branches, also leaving the row unaccepted.  With
no true intersector the row is accepted unchanged. -/
def processFeature {G A : Type} (ops : GeomOps G) (snapshot : List (Feature G A))
    (st : List (Feature G A) × List (Feature G A)) (f : Feature G A) :
    List (Feature G A) × List (Feature G A) :=
  if (trueIntersectors ops snapshot st.1 f).isEmpty = false then
    if f.rank < maxRank (trueIntersectors ops snapshot st.1 f) then
      (st.1.filter fun r => decide (f.rank < r.rank) || !ops.intersects r.geom f.geom,
        st.2 ++ [f])
    else if maxRank (trueIntersectors ops snapshot st.1 f) < f.rank then
      (st.1, st.2)
    else
      (st.1, st.2)
  else
    (st.1, st.2 ++ [f])

/-- One iteration of the `for layer_name, next_layer in sorted_layers[1:]`
loop: build the spatial index over the current `result` (the snapshot),
run the feature loop, then concatenate the accepted rows onto `result`. -/
def processLayer {G A : Type} (ops : GeomOps G) (result : List (Feature G A))
    (layer : List (Feature G A)) : List (Feature G A) :=
  let st := layer.foldl (processFeature ops result) (result, [])
  st.1 ++ st.2

/-- The accumulation over the subsequent layers: a left fold of
`processLayer` seeded with the highest-priority layer's rows. -/
def vacc {G A : Type} (ops : GeomOps G) (first : List (Feature G A))
    (layers : List (List (Feature G A))) : List (Feature G A) :=
  layers.foldl (processLayer ops) first

/-- `for i, (layer_name, layer) in enumerate(sorted_layers): layer['_layer_priority'] = i`:
stamp each layer's rows with the layer's position in the sorted order. -/
def assignRanks {G A : Type} (k : Nat) :
    List (Nat × List (G × A)) → List (List (Feature G A))
  | [] => []
  | (_, l) :: ls => (l.map fun ga => ⟨ga.1, ga.2, k⟩) :: assignRanks (k + 1) ls

/-- Stable insertion used to model Python's stable `sorted`: an element is
inserted after every earlier element whose key is less or equal. -/
def insertSorted {α : Type} (key : α → Nat) (a : α) : List α → List α
  | [] => [a]
  | b :: bs => if key b ≤ key a then b :: insertSorted key a bs else a :: b :: bs

/-- `sorted(union_layers_with_names, key=lambda x: layer_priority.index(x[0]))`:
a stable sort by the position of the layer name in the priority list. -/
def sortByKey {α : Type} (key : α → Nat) (l : List α) : List α :=
  l.foldl (fun acc a => insertSorted key a acc) []

/-- `priority_union_layers` up to (and including) the final
`clean_geometries` pass, returning the rows still carrying their
`_layer_priority` rank: sort the layers by priority, stamp the ranks,
seed the result with the highest-priority layer, fold the remaining
layers in, and clean.  `none` models the exceptions the Python raises on
a layer name absent from `layer_priority` (`list.index` raises
`ValueError`) or on an empty layer list (`sorted_layers[0]` raises
`IndexError`). -/
def priority_union_ranked {G A : Type} [DecidableEq G] (ops : GeomOps G)
    (layer_priority : List Nat) (unionLayers : List (Nat × List (G × A))) :
    Option (List (Feature G A)) :=
  if unionLayers.all fun nl => layer_priority.contains nl.1 then
    match assignRanks 0
        (sortByKey (fun nl => layer_priority.indexOf nl.1) unionLayers) with
    | [] => none
    | first :: rest => some (clean_geometries ops (vacc ops first rest))
  else none

/-- The full `priority_union_layers`: the cleaned result with the
`_layer_priority` column dropped. -/
def priority_union_layers {G A : Type} [DecidableEq G] (ops : GeomOps G)
    (layer_priority : List Nat) (unionLayers : List (Nat × List (G × A))) :
    Option (List (G × A)) :=
  (priority_union_ranked ops layer_priority unionLayers).map
    (List.map fun f => (f.geom, f.attrs))

/-! ## Rasterization model (Step 8 / Standalone_Rasterization_Script) -/

/-- Modelled from the spec: the burning loop of `rasterio.features.rasterize`
is library code absent from this repository; per the spec's Grid
Rasterizer contract, each `(geometry, raster_id)` pair is burned in
iteration order into a grid initialized with the `fill` value, a cell
receiving the class code whenever the geometry hits it under the call's
burning policy, so the last feature hitting a cell wins.  The `touched`
test is the cell test the call's `all_touched` argument selects: the
boundary-inclusive test when the call passes `all_touched=True`, the
default interior-coverage test when the argument is omitted. -/
def rasterizeModel {G : Type} (touched : G → Nat → Bool) (shapes : List (G × Nat))
    (fill : Nat) (c : Nat) : Nat :=
  shapes.foldl (fun acc gv => if touched gv.1 c then gv.2 else acc) fill

/-- Modelled from the spec: the two per-cell tests `rasterize` selects
between.  `allTouched` is the `all_touched=True` test — every cell the
geometry touches, boundary included; `defaultTouched` is the
`all_touched=False` default — only cells whose center the geometry
covers, so a cell touched only by a boundary fails it. -/
structure TouchTests (G : Type) where
  allTouched : G → Nat → Bool
  defaultTouched : G → Nat → Bool

/-- The Step 8 rasterization call (`main.py` lines 679-686):
`rasterize(shapes, ..., fill=0, all_touched=True, ...)` — the
boundary-inclusive test is in effect. -/
def step8Rasterize {G : Type} (tt : TouchTests G) (shapes : List (G × Nat)) (c : Nat) :
    Nat :=
  rasterizeModel tt.allTouched shapes 0 c

/-- The standalone script's rasterization call
(`Standalone_Rasterization_Script.py` lines 67-73):
`rasterize(shapes, ..., fill=0, ...)` with no `all_touched` argument, so
rasterio's default `all_touched=False` test is in effect. -/
def standaloneRasterize {G : Type} (tt : TouchTests G) (shapes : List (G × Nat))
    (c : Nat) : Nat :=
  rasterizeModel tt.defaultTouched shapes 0 c

/-! ## Properties of the external geometry library used as hypotheses -/

/-- A geometry library is box-sound when true intersection implies
bounding-box overlap; shapely guarantees this, and the spatial index
relies on it to return a superset of the true intersectors. -/
def BoxSound {G : Type} (ops : GeomOps G) : Prop :=
  ∀ a b : G, ops.intersects a b = true → (ops.bounds a).overlaps (ops.bounds b) = true

/-- Symmetry of the exact intersection test (true for shapely). -/
def SymmIntersects {G : Type} (ops : GeomOps G) : Prop :=
  ∀ a b : G, ops.intersects a b = ops.intersects b a

/-- The cleaning pipeline (`buffer(0)` then `simplify`) creates no new
intersection between two geometries.  Real simplification can move a
boundary by up to the tolerance, so this is an extra assumption, not a
shapely guarantee. -/
def CleanPreserving {G : Type} (ops : GeomOps G) : Prop :=
  ∀ a b : G,
    ops.intersects (ops.simplify (ops.buffer0 a)) (ops.simplify (ops.buffer0 b)) = true →
      ops.intersects a b = true

instance {G : Type} [Fintype G] [DecidableEq G] (ops : GeomOps G) :
    Decidable (BoxSound ops) := by
  unfold BoxSound; infer_instance

instance {G : Type} [Fintype G] [DecidableEq G] (ops : GeomOps G) :
    Decidable (SymmIntersects ops) := by
  unfold SymmIntersects; infer_instance

instance {G : Type} [Fintype G] [DecidableEq G] (ops : GeomOps G) :
    Decidable (CleanPreserving ops) := by
  unfold CleanPreserving; infer_instance

/-- The rank pattern produced by the `enumerate` stamping: the `j`-th layer
of the list carries rank `k + j` on all of its rows. -/
def RankedFrom {G A : Type} (k : Nat) : List (List (Feature G A)) → Prop
  | [] => True
  | l :: ls => (∀ f ∈ l, f.rank = k) ∧ RankedFrom (k + 1) ls

/-- No two features of different `_layer_priority` rank truly intersect —
the CompositeVectorResult invariant of the spec. -/
def CrossRankDisjoint {G A : Type} (ops : GeomOps G) (l : List (Feature G A)) : Prop :=
  ∀ a ∈ l, ∀ b ∈ l, a.rank ≠ b.rank → ops.intersects a.geom b.geom = false

/-! ## Concrete instances used by witnesses and counterexamples -/

/-- A four-element geometry universe for concrete evaluations. -/
inductive TG where
  | gA
  | gB
  | gC
  | gD
deriving DecidableEq, Fintype

/-- A single bounding box shared by every toy geometry (it overlaps itself,
so bounding boxes never rule a candidate out). -/
def box0 : Box := ⟨0, 0, 0, 0⟩

/-- Toy geometry ops where exactly `gA` and `gB` intersect each other and
repair/simplification leave geometries unchanged. -/
def opsX : GeomOps TG where
  intersects a b :=
    match a, b with
    | TG.gA, TG.gB => true
    | TG.gB, TG.gA => true
    | _, _ => false
  bounds _ := box0
  buffer0 g := g
  simplify g := g
  isEmpty _ := false

/-- Toy geometry ops where `gC` and `gD` are disjoint but simplification
moves them onto the intersecting pair `gA`/`gB`. -/
def opsY : GeomOps TG where
  intersects a b :=
    match a, b with
    | TG.gA, TG.gB => true
    | TG.gB, TG.gA => true
    | _, _ => false
  bounds _ := box0
  buffer0 g := g
  simplify g :=
    match g with
    | TG.gC => TG.gA
    | TG.gD => TG.gB
    | g => g
  isEmpty _ := false

/-- Toy geometry ops where the distinct geometries `gA` and `gB` simplify
to the same geometry `gC`. -/
def opsC : GeomOps TG where
  intersects _ _ := false
  bounds _ := box0
  buffer0 g := g
  simplify g :=
    match g with
    | TG.gA => TG.gC
    | TG.gB => TG.gC
    | g => g
  isEmpty _ := false

/-- The spec's 2x2 scenario grid P1 = [[5,0],[0,0]] (row-major cells). -/
def gP1 : Grid :=
  ⟨2, 2, (0, 0, 5, 5), 1, 0, fun c => if c = 0 then 5 else 0⟩

/-- The spec's 2x2 scenario grid P2 = [[0,7],[0,0]]. -/
def gP2 : Grid :=
  ⟨2, 2, (0, 0, 5, 5), 1, 0, fun c => if c = 1 then 7 else 0⟩

/-- The spec's 2x2 scenario grid P3 = [[0,0],[9,9]]. -/
def gP3 : Grid :=
  ⟨2, 2, (0, 0, 5, 5), 1, 0, fun c => if c = 2 ∨ c = 3 then 9 else 0⟩

/-- A grid whose affine transform differs from `gP1`'s. -/
def gBad : Grid :=
  ⟨2, 2, (1, 1, 5, 5), 1, 0, fun _ => 4⟩

/-- The concrete fold value of the Step 9 combine loop over the scenario
grids, used by the C1 witness. -/
def comb123 : Nat → Nat :=
  [gP2, gP3].foldl (combineStep gP1.nodata gP1) gP1.data

/-- A rank-0 feature on geometry `gC`. -/
def fC0 : Feature TG Nat := ⟨TG.gC, 0, 0⟩

/-- A rank-1 feature on geometry `gA`. -/
def fA1 : Feature TG Nat := ⟨TG.gA, 0, 1⟩

/-- A rank-2 feature on geometry `gB`. -/
def fB2 : Feature TG Nat := ⟨TG.gB, 0, 2⟩

/-- Two distinct, disjoint features whose geometries simplify (under `opsC`)
to the same geometry. -/
def lC8 : List (Feature TG Nat) := [⟨TG.gA, 0, 0⟩, ⟨TG.gB, 1, 0⟩]

/-- A toy all-touched test for the rasterization witness: only `gA`
touches cell `0`. -/
def touchedW : TG → Nat → Bool := fun g c =>
  match g, c with
  | TG.gA, 0 => true
  | _, _ => false

/-- Toy touch tests where `gA` touches cell `0` at its boundary only: the
boundary-inclusive `all_touched=True` test reports it, the default
interior-coverage test does not. -/
def ttW : TouchTests TG where
  allTouched := touchedW
  defaultTouched := fun _ _ => false

/-! ## Helper lemmas: raster path -/

lemma combineStep_of_not_matches {nodata : Nat} {meta : Grid} (acc : Nat → Nat) {h : Grid}
    (hne : ¬ matchesMeta meta h) : combineStep nodata meta acc h = acc := by
  unfold combineStep
  exact if_neg hne

lemma combineFold_cell (g : Grid) :
    ∀ (rest : List Grid) (acc : Nat → Nat) (c : Nat),
      (∀ h ∈ rest, matchesMeta g h) →
      (rest.foldl (combineStep 0 g) acc) c =
        if acc c = 0 then firstNonzero (rest.map fun gr => gr.data c) else acc c := by
  intro rest
  induction rest with
  | nil =>
    intro acc c _
    by_cases h0 : acc c = 0 <;> simp [firstNonzero, h0]
  | cons h t ih =>
    intro acc c hms
    have hmh : matchesMeta g h := hms h (List.mem_cons_self h t)
    have hmt : ∀ x ∈ t, matchesMeta g x := fun x hx => hms x (List.mem_cons_of_mem h hx)
    have hstep : combineStep 0 g acc h
        = fun c => if acc c = 0 ∧ h.data c ≠ 0 ∧ h.data c ≠ 0 then h.data c else acc c := by
      unfold combineStep
      exact if_pos hmh
    have hrec := ih (combineStep 0 g acc h) c hmt
    rw [List.foldl_cons, hrec, hstep]
    by_cases h0 : acc c = 0
    · by_cases hd : h.data c = 0
      · simp [firstNonzero, h0, hd]
      · simp [firstNonzero, h0, hd]
    · simp [firstNonzero, h0]

/-! ## Helper lemmas: vector path -/

lemma mem_of_mem_trueIntersectors {G A : Type} {ops : GeomOps G}
    {snapshot result : List (Feature G A)} {f r : Feature G A}
    (hr : r ∈ trueIntersectors ops snapshot result f) :
    r ∈ result ∧ ops.intersects r.geom f.geom = true := by
  unfold trueIntersectors at hr
  have h1 := List.mem_filter.mp hr
  refine ⟨?_, h1.2⟩
  rcases List.mem_filterMap.mp h1.1 with ⟨p, _, hget⟩
  exact List.get?_mem hget

lemma trueIntersectors_eq_nil {G A : Type} (ops : GeomOps G)
    (snapshot result : List (Feature G A)) (f : Feature G A)
    (hno : ∀ r ∈ result, ops.intersects r.geom f.geom = false) :
    trueIntersectors ops snapshot result f = [] := by
  unfold trueIntersectors
  refine List.filter_eq_nil.mpr ?_
  intro r hr
  rcases List.mem_filterMap.mp hr with ⟨p, _, hget⟩
  have := hno r (List.get?_mem hget)
  simp [this]

lemma mem_trueIntersectors_self {G A : Type} {ops : GeomOps G}
    (hsound : BoxSound ops) {result : List (Feature G A)} {f r : Feature G A}
    (hr : r ∈ result) (hint : ops.intersects r.geom f.geom = true) :
    r ∈ trueIntersectors ops result result f := by
  rcases List.get?_of_mem hr with ⟨i, hi⟩
  have henum : (i, r) ∈ result.enum := List.mem_enum_iff_get?.mpr hi
  have hbox : (ops.bounds r.geom).overlaps (ops.bounds f.geom) = true :=
    hsound r.geom f.geom hint
  have hcand : i ∈ bboxCandidates ops result f := by
    unfold bboxCandidates
    exact List.mem_map.mpr ⟨(i, r), List.mem_filter.mpr ⟨henum, hbox⟩, rfl⟩
  unfold trueIntersectors
  refine List.mem_filter.mpr ⟨?_, hint⟩
  exact List.mem_filterMap.mpr ⟨i, hcand, hi⟩

lemma foldl_max_rank_lt {G A : Type} :
    ∀ (l : List (Feature G A)) (m k : Nat), m < k → (∀ x ∈ l, x.rank < k) →
      l.foldl (fun m r => max m r.rank) m < k := by
  intro l
  induction l with
  | nil => intro m k hm _; exact hm
  | cons x t ih =>
    intro m k hm hall
    have hx : x.rank < k := hall x (List.mem_cons_self x t)
    exact ih (max m x.rank) k (max_lt hm hx) fun y hy => hall y (List.mem_cons_of_mem x hy)

lemma maxRank_lt {G A : Type} {l : List (Feature G A)} {k : Nat}
    (hk : 0 < k) (hall : ∀ x ∈ l, x.rank < k) : maxRank l < k :=
  foldl_max_rank_lt l 0 k hk hall

lemma processFeature_accept {G A : Type} (ops : GeomOps G)
    (snapshot result upd : List (Feature G A)) (f : Feature G A)
    (hno : ∀ r ∈ result, ops.intersects r.geom f.geom = false) :
    processFeature ops snapshot (result, upd) f = (result, upd ++ [f]) := by
  have hnil := trueIntersectors_eq_nil ops snapshot result f hno
  simp [processFeature, hnil]

lemma processFeature_drop {G A : Type} (ops : GeomOps G) (hsound : BoxSound ops)
    (result upd : List (Feature G A)) (f : Feature G A)
    (hex : ∃ r ∈ result, ops.intersects r.geom f.geom = true)
    (hlt : ∀ r ∈ result, ops.intersects r.geom f.geom = true → r.rank < f.rank) :
    processFeature ops result (result, upd) f = (result, upd) := by
  rcases hex with ⟨r, hr, hint⟩
  have hmem : r ∈ trueIntersectors ops result result f :=
    mem_trueIntersectors_self hsound hr hint
  have hne : trueIntersectors ops result result f ≠ [] := by
    intro hnil
    rw [hnil] at hmem
    exact absurd hmem (List.not_mem_nil r)
  have hrank0 : 0 < f.rank := Nat.lt_of_le_of_lt (Nat.zero_le r.rank) (hlt r hr hint)
  have hmax : maxRank (trueIntersectors ops result result f) < f.rank := by
    refine maxRank_lt hrank0 ?_
    intro x hx
    rcases mem_of_mem_trueIntersectors hx with ⟨hxr, hxint⟩
    exact hlt x hxr hxint
  simp [processFeature, List.isEmpty_eq_false.mpr hne, Nat.not_lt_of_lt hmax, hmax]

lemma processFeature_of_ranks_lt {G A : Type} (ops : GeomOps G) (hsound : BoxSound ops)
    (result upd : List (Feature G A)) (f : Feature G A)
    (hrk : ∀ r ∈ result, r.rank < f.rank) :
    processFeature ops result (result, upd) f =
      (result,
        if result.all (fun r => !ops.intersects r.geom f.geom) then upd ++ [f] else upd) := by
  by_cases hall : result.all (fun r => !ops.intersects r.geom f.geom) = true
  · rw [if_pos hall]
    refine processFeature_accept ops result result upd f ?_
    intro r hr
    have := List.all_eq_true.mp hall r hr
    simpa using this
  · have hall' : result.all (fun r => !ops.intersects r.geom f.geom) = false :=
      Bool.eq_false_iff.mpr hall
    rw [if_neg hall]
    rcases List.all_eq_false.mp hall' with ⟨r, hr, hintr⟩
    have hint : ops.intersects r.geom f.geom = true := by
      simpa using hintr
    exact processFeature_drop ops hsound result upd f ⟨r, hr, hint⟩
      fun x hx _ => hrk x hx

lemma processFold_eq {G A : Type} (ops : GeomOps G) (hsound : BoxSound ops)
    (result : List (Feature G A)) :
    ∀ (layer upd : List (Feature G A)),
      (∀ r ∈ result, ∀ f ∈ layer, r.rank < f.rank) →
      layer.foldl (processFeature ops result) (result, upd) =
        (result,
          upd ++ layer.filter fun f => result.all fun r => !ops.intersects r.geom f.geom) := by
  intro layer
  induction layer with
  | nil => intro upd _; simp
  | cons f t ih =>
    intro upd hrk
    have hf : ∀ r ∈ result, r.rank < f.rank :=
      fun r hr => hrk r hr f (List.mem_cons_self f t)
    have ht : ∀ r ∈ result, ∀ x ∈ t, r.rank < x.rank :=
      fun r hr x hx => hrk r hr x (List.mem_cons_of_mem f hx)
    rw [List.foldl_cons, processFeature_of_ranks_lt ops hsound result upd f hf]
    by_cases hpass : result.all (fun r => !ops.intersects r.geom f.geom) = true
    · rw [if_pos hpass, ih (upd ++ [f]) ht]
      simp [List.filter_cons, hpass]
    · have hpass' := Bool.eq_false_iff.mpr hpass
      rw [if_neg hpass, ih upd ht]
      simp [List.filter_cons, hpass']

lemma processLayer_eq {G A : Type} (ops : GeomOps G) (hsound : BoxSound ops)
    (result layer : List (Feature G A))
    (hrk : ∀ r ∈ result, ∀ f ∈ layer, r.rank < f.rank) :
    processLayer ops result layer =
      result ++ layer.filter fun f => result.all fun r => !ops.intersects r.geom f.geom := by
  unfold processLayer
  rw [processFold_eq ops hsound result layer [] hrk]
  simp

lemma processFeature_state {G A : Type} (ops : GeomOps G)
    (snapshot : List (Feature G A)) (st : List (Feature G A) × List (Feature G A))
    (f : Feature G A) :
    ((processFeature ops snapshot st f).1 = st.1 ∨
      (processFeature ops snapshot st f).1 =
        st.1.filter fun r => decide (f.rank < r.rank) || !ops.intersects r.geom f.geom) ∧
    ((processFeature ops snapshot st f).2 = st.2 ∨
      (processFeature ops snapshot st f).2 = st.2 ++ [f]) := by
  unfold processFeature
  split
  · split
    · exact ⟨Or.inr rfl, Or.inr rfl⟩
    · split
      · exact ⟨Or.inl rfl, Or.inl rfl⟩
      · exact ⟨Or.inl rfl, Or.inl rfl⟩
  · exact ⟨Or.inl rfl, Or.inr rfl⟩

lemma processFold_mem {G A : Type} (ops : GeomOps G) (snapshot : List (Feature G A)) :
    ∀ (layer : List (Feature G A)) (st : List (Feature G A) × List (Feature G A))
      (x : Feature G A),
      (x ∈ (layer.foldl (processFeature ops snapshot) st).1 → x ∈ st.1) ∧
      (x ∈ (layer.foldl (processFeature ops snapshot) st).2 → x ∈ st.2 ∨ x ∈ layer) := by
  intro layer
  induction layer with
  | nil => intro st x; exact ⟨fun h => h, fun h => Or.inl h⟩
  | cons f t ih =>
    intro st x
    have hstate := processFeature_state ops snapshot st f
    have hrec := ih (processFeature ops snapshot st f) x
    constructor
    · intro hx
      have h1 := hrec.1 hx
      rcases hstate.1 with he | he
      · rw [he] at h1; exact h1
      · rw [he] at h1; exact List.mem_of_mem_filter h1
    · intro hx
      rcases hrec.2 hx with h2 | h2
      · rcases hstate.2 with he | he
        · rw [he] at h2; exact Or.inl h2
        · rw [he] at h2
          rcases List.mem_append.mp h2 with h3 | h3
          · exact Or.inl h3
          · have : x = f := by simpa using h3
            exact Or.inr (this ▸ List.mem_cons_self f t)
      · exact Or.inr (List.mem_cons_of_mem f h2)

lemma processLayer_mem {G A : Type} {ops : GeomOps G}
    {result layer : List (Feature G A)} {x : Feature G A}
    (hx : x ∈ processLayer ops result layer) : x ∈ result ∨ x ∈ layer := by
  unfold processLayer at hx
  rcases List.mem_append.mp hx with h1 | h1
  · exact Or.inl ((processFold_mem ops result layer (result, []) x).1 h1)
  · rcases (processFold_mem ops result layer (result, []) x).2 h1 with h2 | h2
    · exact absurd h2 (List.not_mem_nil x)
    · exact Or.inr h2

lemma vacc_mem {G A : Type} (ops : GeomOps G) :
    ∀ (ls : List (List (Feature G A))) (first : List (Feature G A)) (x : Feature G A),
      x ∈ vacc ops first ls → x ∈ first ∨ ∃ l ∈ ls, x ∈ l := by
  intro ls
  induction ls with
  | nil => intro first x hx; exact Or.inl hx
  | cons l t ih =>
    intro first x hx
    have : vacc ops first (l :: t) = vacc ops (processLayer ops first l) t := rfl
    rw [this] at hx
    rcases ih (processLayer ops first l) x hx with h1 | h1
    · rcases processLayer_mem h1 with h2 | h2
      · exact Or.inl h2
      · exact Or.inr ⟨l, List.mem_cons_self l t, h2⟩
    · rcases h1 with ⟨l', hl', hxl'⟩
      exact Or.inr ⟨l', List.mem_cons_of_mem l hl', hxl'⟩

lemma rankedFrom_append_left {G A : Type} :
    ∀ (xs ys : List (List (Feature G A))) (k : Nat),
      RankedFrom k (xs ++ ys) → RankedFrom k xs := by
  intro xs
  induction xs with
  | nil => intro ys k _; exact trivial
  | cons x t ih =>
    intro ys k h
    exact ⟨h.1, ih ys (k + 1) h.2⟩

lemma rankedFrom_ranks {G A : Type} :
    ∀ (done : List (List (Feature G A))) (l : List (Feature G A))
      (todo : List (List (Feature G A))) (k : Nat),
      RankedFrom k (done ++ l :: todo) →
        (∀ d ∈ done, ∀ r ∈ d, r.rank < k + done.length) ∧
          (∀ f ∈ l, f.rank = k + done.length) := by
  intro done
  induction done with
  | nil =>
    intro l todo k h
    exact ⟨fun d hd => absurd hd (List.not_mem_nil d), fun f hf => h.1 f hf⟩
  | cons d t ih =>
    intro l todo k h
    have hrec := ih l todo (k + 1) h.2
    constructor
    · intro d' hd' r hr
      rcases List.mem_cons.mp hd' with he | he
      · have : r.rank = k := by rw [he] at hr; exact h.1 r hr
        simp only [this, List.length_cons]
        omega
      · have := hrec.1 d' he r hr
        simp only [List.length_cons]
        omega
    · intro f hf
      have := hrec.2 f hf
      simp only [List.length_cons]
      omega

lemma vacc_rank_lt {G A : Type} (ops : GeomOps G)
    (first : List (Feature G A)) (done : List (List (Feature G A)))
    (h0 : ∀ f ∈ first, f.rank = 0)
    (hdone : ∀ d ∈ done, ∀ r ∈ d, r.rank < 1 + done.length) :
    ∀ r ∈ vacc ops first done, r.rank < 1 + done.length := by
  intro r hr
  rcases vacc_mem ops done first r hr with h1 | h1
  · have := h0 r h1
    omega
  · rcases h1 with ⟨d, hd, hrd⟩
    exact hdone d hd r hrd

lemma crossRank_vacc {G A : Type} (ops : GeomOps G) (hsound : BoxSound ops)
    (hsymm : SymmIntersects ops) :
    ∀ (ls : List (List (Feature G A))) (result : List (Feature G A)) (k : Nat),
      (∀ r ∈ result, r.rank < k) → RankedFrom k ls → CrossRankDisjoint ops result →
      CrossRankDisjoint ops (vacc ops result ls) := by
  intro ls
  induction ls with
  | nil => intro result k _ _ hinv; exact hinv
  | cons l t ih =>
    intro result k hbound hrf hinv
    have hstep : vacc ops result (l :: t) = vacc ops (processLayer ops result l) t := rfl
    have hrk : ∀ r ∈ result, ∀ f ∈ l, r.rank < f.rank := by
      intro r hr f hf
      rw [hrf.1 f hf]
      exact hbound r hr
    have hplayer := processLayer_eq ops hsound result l hrk
    rw [hstep, hplayer]
    set accepted := l.filter fun f => result.all fun r => !ops.intersects r.geom f.geom with hacc
    have haccmem : ∀ a ∈ accepted, a ∈ l ∧ ∀ r ∈ result, ops.intersects r.geom a.geom = false := by
      intro a ha
      rcases List.mem_filter.mp ha with ⟨hal, hall⟩
      refine ⟨hal, ?_⟩
      intro r hr
      have := List.all_eq_true.mp hall r hr
      simpa using this
    refine ih (result ++ accepted) (k + 1) ?_ hrf.2 ?_
    · intro r hr
      rcases List.mem_append.mp hr with h1 | h1
      · have := hbound r h1; omega
      · have : r.rank = k := hrf.1 r (haccmem r h1).1
        omega
    · intro a ha b hb hab
      rcases List.mem_append.mp ha with ha1 | ha1 <;> rcases List.mem_append.mp hb with hb1 | hb1
      · exact hinv a ha1 b hb1 hab
      · exact (haccmem b hb1).2 a ha1
      · rw [hsymm a.geom b.geom]
        exact (haccmem a ha1).2 b hb1
      · exfalso
        have hae : a.rank = k := hrf.1 a (haccmem a ha1).1
        have hbe : b.rank = k := hrf.1 b (haccmem b hb1).1
        exact hab (hae.trans hbe.symm)

lemma dedupByGeom_subset {G A : Type} [DecidableEq G] :
    ∀ (l : List (Feature G A)) (x : Feature G A), x ∈ dedupByGeom l → x ∈ l := by
  intro l
  induction l with
  | nil => intro x hx; exact hx
  | cons f t ih =>
    intro x hx
    rcases List.mem_cons.mp hx with he | he
    · exact he ▸ List.mem_cons_self f t
    · exact List.mem_cons_of_mem f (ih x (List.mem_of_mem_filter he))

lemma mem_clean_geometries {G A : Type} [DecidableEq G] (ops : GeomOps G)
    (l : List (Feature G A)) (x : Feature G A) (hx : x ∈ clean_geometries ops l) :
    ∃ y ∈ l, x = { y with geom := ops.simplify (ops.buffer0 y.geom) } := by
  unfold clean_geometries at hx
  have hx1 := List.mem_of_mem_filter hx
  rw [List.map_map] at hx1
  rcases List.mem_map.mp hx1 with ⟨y, hy, he⟩
  exact ⟨y, dedupByGeom_subset l y hy, he.symm⟩

lemma dedupByGeom_of_pairwise {G A : Type} [DecidableEq G] :
    ∀ (l : List (Feature G A)),
      List.Pairwise (fun a b => a.geom ≠ b.geom) l → dedupByGeom l = l := by
  intro l
  induction l with
  | nil => intro _; rfl
  | cons f t ih =>
    intro hp
    have hne : ∀ g ∈ t, f.geom ≠ g.geom := fun g hg => (List.pairwise_cons.mp hp).1 g hg
    unfold dedupByGeom
    rw [ih (List.pairwise_cons.mp hp).2]
    rw [List.filter_eq_self.mpr ?_]
    intro g hg
    simpa using fun he => hne g hg he.symm

lemma assignRanks_rankedFrom {G A : Type} :
    ∀ (ls : List (Nat × List (G × A))) (k : Nat),
      RankedFrom k (assignRanks k ls : List (List (Feature G A))) := by
  intro ls
  induction ls with
  | nil => intro k; exact trivial
  | cons nl t ih =>
    intro k
    refine ⟨?_, ih (k + 1)⟩
    intro f hf
    rcases List.mem_map.mp hf with ⟨ga, _, he⟩
    rw [← he]

lemma rasterizeFold_find {G : Type} (touched : G → Nat → Bool) (c : Nat) :
    ∀ (shapes : List (G × Nat)) (fill : Nat),
      shapes.foldl (fun acc gv => if touched gv.1 c then gv.2 else acc) fill =
        (((shapes.reverse.find? fun gv => touched gv.1 c).map Prod.snd).getD fill) := by
  intro shapes
  induction shapes using List.reverseRecOn with
  | nil => intro fill; rfl
  | append_singleton t a ih =>
    intro fill
    rw [List.foldl_append, List.reverse_append]
    simp only [List.foldl_cons, List.foldl_nil, List.reverse_cons, List.reverse_nil,
      List.nil_append, List.singleton_append, List.find?_cons]
    by_cases ha : touched a.1 c = true
    · simp [ha]
    · have ha' : touched a.1 c = false := Bool.eq_false_iff.mpr ha
      simp [ha', ih fill]

/-! ## Claim theorems -/

/-- C1: Raster priority compositing — for grids sharing identical
width/height/transform/CRS (and the pipeline's no-data sentinel 0 on the
first grid, whose metadata drives the fill mask), the Step 9 combine
loop, seeded with the first grid verbatim, yields at every cell the value
of the highest-priority grid holding a non-zero value there, and 0 when
every grid holds 0. -/
theorem raster_priority_fill (g : Grid) (rest : List Grid)
    (hgeom : ∀ h ∈ rest, matchesMeta g h) (hnd : g.nodata = 0) (c : Nat)
    (out : Nat → Nat) (hout : combineRasters (g :: rest) = some out) :
    out c = firstNonzero ((g :: rest).map fun gr => gr.data c) := by
  have hdef : combineRasters (g :: rest) =
      some (rest.foldl (combineStep g.nodata g) g.data) := rfl
  rw [hdef] at hout
  have hout' : out = rest.foldl (combineStep g.nodata g) g.data :=
    (Option.some.inj hout).symm
  rw [hout', hnd, combineFold_cell g rest g.data c hgeom]
  by_cases h0 : g.data c = 0 <;> simp [firstNonzero, h0]

/-- Witness for C1 at the spec's 2x2 scenario grids (cell 1 is filled by
the second-priority grid). -/
theorem raster_priority_fill_witness :
    comb123 1 = firstNonzero ([gP1, gP2, gP3].map fun gr => gr.data 1) :=
  raster_priority_fill gP1 [gP2, gP3] (by decide) rfl 1 comb123 rfl

/-- C6: Grid geometry equality gate — a grid whose width, height, transform
or CRS differs from the first grid's accumulated metadata is skipped: the
combine loop's outcome with the mismatched grid in any position equals
the outcome without it, so already-accumulated cells are untouched and
the remaining grids still compose. -/
theorem mismatched_grid_skipped (g b : Grid) (pre post : List Grid)
    (hb : ¬ matchesMeta g b) :
    combineRasters (g :: (pre ++ b :: post)) = combineRasters (g :: (pre ++ post)) := by
  have h1 : (pre ++ b :: post).foldl (combineStep g.nodata g) g.data =
      (pre ++ post).foldl (combineStep g.nodata g) g.data := by
    rw [List.foldl_append, List.foldl_append, List.foldl_cons,
      combineStep_of_not_matches _ hb]
  simp only [combineRasters, h1]

/-- Witness for C6: a grid with a different transform contributes nothing. -/
theorem mismatched_grid_skipped_witness :
    combineRasters [gP1, gBad] = combineRasters [gP1] :=
  mismatched_grid_skipped gP1 gBad [] [] (by decide)

/-- C9: Fatal absence of valid grids — when every priority layer's raster is
missing or fails to open, no combined raster is produced
(`rasters_processed` stays false and the combined file is never written). -/
theorem no_valid_grid_no_composite (rs : List (Option Grid))
    (h : ∀ r ∈ rs, r = none) : combinePipeline rs = none := by
  have hnil : rs.filterMap id = [] := by
    rw [List.filterMap_eq_nil]
    intro a ha
    rw [h a ha]; rfl
  unfold combinePipeline
  rw [hnil]
  rfl

/-- Witness for C9 with two absent rasters. -/
theorem no_valid_grid_no_composite_witness :
    combinePipeline [none, none] = none :=
  no_valid_grid_no_composite [none, none] (by simp)

/-- C7 (amended): all-touched rasterization holds at the Step 8 call site
of `main.py`, which passes `all_touched=True` — burning the
`(geometry, raster_id)` pairs with fill 0 gives each cell the class code
of the last feature in iteration order whose geometry touches it,
boundary included, and 0 at every cell no feature touches.  The
standalone script's call omits `all_touched` and is not covered (see the
counterexample). -/
theorem rasterize_all_touched {G : Type} (tt : TouchTests G)
    (shapes : List (G × Nat)) (c : Nat) :
    step8Rasterize tt shapes c =
        (((shapes.reverse.find? fun gv => tt.allTouched gv.1 c).map Prod.snd).getD 0) ∧
      ((∀ gv ∈ shapes, tt.allTouched gv.1 c = false) → step8Rasterize tt shapes c = 0) := by
  have heq : step8Rasterize tt shapes c =
      (((shapes.reverse.find? fun gv => tt.allTouched gv.1 c).map Prod.snd).getD 0) :=
    rasterizeFold_find tt.allTouched c shapes 0
  refine ⟨heq, fun hall => ?_⟩
  have hnone : (shapes.reverse.find? fun gv => tt.allTouched gv.1 c) = none := by
    rw [List.find?_eq_none]
    intro x hx
    simp [hall x (List.mem_reverse.mp hx)]
  rw [heq, hnone]
  rfl

/-- Witness for C7: a cell touched by no shape stays at the no-data value 0. -/
theorem rasterize_all_touched_witness :
    step8Rasterize ttW [(TG.gA, 7)] 5 = 0 :=
  (rasterize_all_touched ttW [(TG.gA, 7)] 5).2 (by decide)

/-- Counterexample for C7 as stated: the claim covers every rasterized
layer, citing the standalone script's call too, but that call passes no
`all_touched` argument, so rasterio's default `all_touched=False` test
applies there.  Cell 0 is touched (boundary included) by `gA` carrying
class code 7, yet the standalone call leaves the cell at the no-data
value 0 instead of burning 7. -/
theorem standalone_not_all_touched :
    ttW.allTouched TG.gA 0 = true ∧ standaloneRasterize ttW [(TG.gA, 7)] 0 = 0 := by
  decide

/-- C2: Vector compositor accept/drop rule — a feature of a subsequent
layer with no truly-intersecting result feature is appended to
`updated_geometries` with its geometry and attributes unchanged; when
intersectors exist and every one of them has a strictly lower
(numerically better) rank than the feature's layer, the feature is
dropped whole, leaving the result and the accepted list untouched. -/
theorem vector_accept_drop {G A : Type} (ops : GeomOps G) (hsound : BoxSound ops)
    (result upd : List (Feature G A)) (f : Feature G A) :
    ((∀ r ∈ result, ops.intersects r.geom f.geom = false) →
        processFeature ops result (result, upd) f = (result, upd ++ [f])) ∧
      ((∃ r ∈ result, ops.intersects r.geom f.geom = true) →
        (∀ r ∈ result, ops.intersects r.geom f.geom = true → r.rank < f.rank) →
          processFeature ops result (result, upd) f = (result, upd)) :=
  ⟨fun hno => processFeature_accept ops result result upd f hno,
    fun hex hlt => processFeature_drop ops hsound result upd f hex hlt⟩

/-- Witness for C2: a non-intersecting incoming feature is accepted
unchanged. -/
theorem vector_accept_drop_witness :
    processFeature opsX [fC0] ([fC0], []) fA1 = ([fC0], [fA1]) :=
  (vector_accept_drop opsX (by decide) [fC0] [] fA1).1 (by decide)

/-- C3: concrete evaluation of the removal branch (main.py lines 119-132).
The accumulated result holds one rank-2 feature intersecting the incoming
rank-1 feature, so the "replace intersecting geometries" branch fires;
the claim (and the code's own comment) require the intersecting feature
of rank no better than the incoming rank to be removed, i.e. the state
`([], [incoming])` — but the filter keeps `_layer_priority >` the
incoming rank, so the worse-ranked intersector survives alongside the
accepted feature. -/
theorem removal_branch_keeps_worse_ranked :
    processFeature opsX [fB2] ([fB2], []) fA1 = ([fB2], [fA1]) := by decide

/-- C10: result monotonicity of the vector compositor — with ranks assigned
0..n-1 in processing order (rank of each done/current layer fixed by
`RankedFrom`), processing one more layer never removes a result feature:
the new accumulated result is exactly the old one extended with the
incoming features that intersect no result feature, so the removal branch
never executes and every truly-intersecting incoming feature is dropped. -/
theorem vector_accum_monotone {G A : Type} (ops : GeomOps G) (hsound : BoxSound ops)
    (first : List (Feature G A)) (rest done : List (List (Feature G A)))
    (l : List (Feature G A)) (todo : List (List (Feature G A)))
    (h0 : ∀ f ∈ first, f.rank = 0) (hR : RankedFrom 1 rest)
    (hsplit : rest = done ++ l :: todo) :
    vacc ops first (done ++ [l]) =
      vacc ops first done ++
        l.filter fun f =>
          (vacc ops first done).all fun r => !ops.intersects r.geom f.geom := by
  subst hsplit
  have hranks := rankedFrom_ranks done l todo 1 hR
  have hvr : ∀ r ∈ vacc ops first done, r.rank < 1 + done.length :=
    vacc_rank_lt ops first done h0 hranks.1
  have hrk : ∀ r ∈ vacc ops first done, ∀ f ∈ l, r.rank < f.rank := by
    intro r hr f hf
    rw [hranks.2 f hf]
    exact hvr r hr
  have hsplitv : vacc ops first (done ++ [l]) = processLayer ops (vacc ops first done) l := by
    unfold vacc
    rw [List.foldl_append]
    rfl
  rw [hsplitv, processLayer_eq ops hsound (vacc ops first done) l hrk]

/-- Witness for C10: one seed layer, one subsequent layer. -/
theorem vector_accum_monotone_witness :
    vacc opsX [fC0] ([] ++ [[fA1]]) =
      vacc opsX [fC0] [] ++
        [fA1].filter fun f =>
          (vacc opsX [fC0] []).all fun r => !opsX.intersects r.geom f.geom :=
  vector_accum_monotone opsX (by decide) [fC0] [[fA1]] [] [fA1] []
    (by decide) ⟨by decide, True.intro⟩ rfl

/-- C4 (amended): at every point of the accumulation — after any prefix of
the subsequent layers, before the final cleaning pass — no two
accumulated features of different rank truly intersect, provided the
geometry library is box-sound and its intersection test is symmetric. -/
theorem cross_rank_invariant_accum {G A : Type} (ops : GeomOps G)
    (hsound : BoxSound ops) (hsymm : SymmIntersects ops)
    (first : List (Feature G A)) (rest done todo : List (List (Feature G A)))
    (h0 : ∀ f ∈ first, f.rank = 0) (hR : RankedFrom 1 rest)
    (hsplit : rest = done ++ todo) :
    CrossRankDisjoint ops (vacc ops first done) := by
  subst hsplit
  have hRdone : RankedFrom 1 done := rankedFrom_append_left done todo 1 hR
  refine crossRank_vacc ops hsound hsymm done first 1 ?_ hRdone ?_
  · intro r hr
    rw [h0 r hr]
    exact Nat.zero_lt_one
  · intro a ha b hb hab
    exact absurd ((h0 a ha).trans (h0 b hb).symm) hab

/-- Witness for C4's accumulation invariant at a one-layer input. -/
theorem cross_rank_invariant_accum_witness :
    CrossRankDisjoint opsX (vacc opsX [fC0] []) :=
  cross_rank_invariant_accum opsX (by decide) (by decide) [fC0] [] [] []
    (by decide) True.intro rfl

/-- Counterexample for C4 as stated: in the final returned collection the
invariant can break — the two accumulated features are disjoint (`gC`,
`gD`), but the final `clean_geometries` pass simplifies them onto the
intersecting pair `gA`/`gB`, so the returned collection holds two
truly-intersecting features of ranks 0 and 1. -/
theorem cross_rank_broken_by_clean :
    priority_union_ranked opsY [0, 1] [(0, [(TG.gC, 0)]), (1, [(TG.gD, 0)])] =
        some [⟨TG.gA, 0, 0⟩, ⟨TG.gB, 0, 1⟩] ∧
      opsY.intersects TG.gA TG.gB = true := by decide

/-- C5 (amended): the returned collection contains no two truly-intersecting
features of different origin rank, provided the geometry library is
box-sound, symmetric, and the cleaning pipeline creates no new
intersections; same-rank overlaps are not prevented. -/
theorem output_cross_rank_disjoint {G A : Type} [DecidableEq G] (ops : GeomOps G)
    (hsound : BoxSound ops) (hsymm : SymmIntersects ops) (hpres : CleanPreserving ops)
    (lp : List Nat) (input : List (Nat × List (G × A))) (out : List (Feature G A))
    (hout : priority_union_ranked ops lp input = some out) :
    CrossRankDisjoint ops out := by
  unfold priority_union_ranked at hout
  by_cases hall : (input.all fun nl => lp.contains nl.1) = true
  · rw [if_pos hall] at hout
    cases hranked : assignRanks 0
        (sortByKey (fun nl => lp.indexOf nl.1) input : List (Nat × List (G × A))) with
    | nil =>
      rw [hranked] at hout
      exact absurd hout (Option.noConfusion)
    | cons first rest =>
      rw [hranked] at hout
      have hRf : RankedFrom 0 (first :: rest) := by
        rw [← hranked]
        exact assignRanks_rankedFrom _ 0
      have h0 : ∀ f ∈ first, f.rank = 0 := hRf.1
      have hinv : CrossRankDisjoint ops (vacc ops first rest) := by
        refine crossRank_vacc ops hsound hsymm rest first 1 ?_ hRf.2 ?_
        · intro r hr
          rw [h0 r hr]
          exact Nat.zero_lt_one
        · intro a ha b hb hab
          exact absurd ((h0 a ha).trans (h0 b hb).symm) hab
      have hout' : out = clean_geometries ops (vacc ops first rest) :=
        (Option.some.inj hout).symm
      intro a ha b hb hab
      rw [hout'] at ha hb
      rcases mem_clean_geometries ops _ a ha with ⟨ya, hya, hea⟩
      rcases mem_clean_geometries ops _ b hb with ⟨yb, hyb, heb⟩
      have hra : a.rank = ya.rank := by rw [hea]
      have hrb : b.rank = yb.rank := by rw [heb]
      have hyab : ya.rank ≠ yb.rank := by
        rw [hra, hrb] at hab
        exact hab
      have hfalse : ops.intersects ya.geom yb.geom = false := hinv ya hya yb hyb hyab
      rw [hea, heb]
      cases hcase :
          ops.intersects (ops.simplify (ops.buffer0 ya.geom))
            (ops.simplify (ops.buffer0 yb.geom)) with
      | false => rfl
      | true =>
        have := hpres ya.geom yb.geom hcase
        rw [hfalse] at this
        exact absurd this (Bool.noConfusion)
  · rw [if_neg hall] at hout
    exact absurd hout (Option.noConfusion)

/-- Witness for C5's amended statement at a one-layer run. -/
theorem output_cross_rank_disjoint_witness :
    CrossRankDisjoint opsX [(⟨TG.gC, 5, 0⟩ : Feature TG Nat)] :=
  output_cross_rank_disjoint opsX (by decide) (by decide) (by decide)
    [0] [(0, [(TG.gC, 5)])] [⟨TG.gC, 5, 0⟩] (by decide)

/-- Counterexample for C5 as stated: a single layer containing two
truly-intersecting features is copied into the result verbatim, so the
returned collection is not non-overlapping within one rank. -/
theorem output_same_rank_overlap :
    priority_union_layers opsX [0] [(0, [(TG.gA, 1), (TG.gB, 2)])] =
        some [(TG.gA, 1), (TG.gB, 2)] ∧
      opsX.intersects TG.gA TG.gB = true := by decide

/-- C8 (amended): `clean_geometries` is idempotent on a collection whose
geometries are pairwise distinct, non-empty, and fixed points of
`buffer(0)` followed by `simplify` — in particular on any collection the
cleaning pipeline leaves pointwise unchanged. -/
theorem clean_idempotent_on_fixed {G A : Type} [DecidableEq G] (ops : GeomOps G)
    (l : List (Feature G A))
    (hdist : List.Pairwise (fun a b => a.geom ≠ b.geom) l)
    (hfix : ∀ f ∈ l, ops.simplify (ops.buffer0 f.geom) = f.geom)
    (hne : ∀ f ∈ l, ops.isEmpty f.geom = false) :
    clean_geometries ops l = l := by
  unfold clean_geometries
  rw [dedupByGeom_of_pairwise l hdist, List.map_map]
  have hmap : l.map
      ((fun f : Feature G A => { f with geom := ops.simplify f.geom }) ∘
        fun f => { f with geom := ops.buffer0 f.geom }) = l := by
    have hid : ∀ a ∈ l,
        ((fun f : Feature G A => { f with geom := ops.simplify f.geom }) ∘
          fun f => { f with geom := ops.buffer0 f.geom }) a = id a := by
      intro a ha
      show ({ a with geom := ops.simplify (ops.buffer0 a.geom) } : Feature G A) = a
      rw [hfix a ha]
    rw [List.map_congr_left hid, List.map_id]
  rw [hmap]
  refine List.filter_eq_self.mpr ?_
  intro f hf
  rw [hne f hf]
  rfl

/-- Witness for C8's amended statement: ops that leave the single feature's
geometry fixed. -/
theorem clean_idempotent_on_fixed_witness :
    clean_geometries opsX [fC0] = [fC0] :=
  clean_idempotent_on_fixed opsX [fC0] (by decide) (by decide) (by decide)

/-- Counterexample for C8 as stated: two distinct disjoint geometries both
simplify to `gC`, so the first cleaning pass outputs two rows with equal
geometry and a second pass deduplicates one of them — re-running the
cleaner on its own output changes the collection. -/
theorem clean_not_idempotent :
    clean_geometries opsC (clean_geometries opsC lC8) ≠ clean_geometries opsC lC8 := by
  decide

end LifeLanduse
